import Mathlib

/-!
Verification development for the movie listing endpoint (`getMovies` in the
movie-handler-api repository). The controller translates an incoming query
string into a MongoDB filter document, a search predicate, a sort
specification and a pagination window, runs a count query, and assembles a
response envelope. All definitions below are shallow embeddings of that
controller and of the behaviour of its collaborators (the Express `extended`
query-string parser and the Mongoose/MongoDB record store) on the inputs the
listing endpoint can produce.
-/

namespace MovieApi

/-- A parsed query-string value as delivered by the Express `extended`
query parser (the app never overrides the default parser): either a plain
string, or -- for a key written `field[sub]` -- a one-level object mapping
the bracket content to its string value. One level of nesting covers every
parameter shape the specification and the listing endpoint deal in; deeper
bracket nesting and duplicate-key array merging are outside this model. -/
inductive QVal where
  | str : String → QVal
  | obj : List (String × String) → QVal
  deriving DecidableEq, Repr

/-- A movie record. The Mongoose model file is not part of the sources under
verification, so the fields are taken from the seed data in
`src/utils/seedData.js`, restricted to the fields the listing claims
exercise: three text fields (`title`, `description`, `director`),
two numeric fields (`rating`, `duration`) and the `createdAt` timestamp.
Numeric values are modelled as integers. -/
structure Movie where
  title : String
  description : String
  director : String
  rating : Int
  duration : Int
  createdAt : Int
  deriving DecidableEq, Repr

/-- Splits a character list on a separator character; the JS
`String.prototype.split` on a one-character separator. -/
def splitCh (sep : Char) : List Char → List (List Char)
  | [] => [[]]
  | c :: rest =>
    let r := splitCh sep rest
    if c = sep then [] :: r
    else
      match r with
      | [] => [[c]]
      | h :: t => (c :: h) :: t

/-- Splits a string on a one-character separator. -/
def splitStr (sep : Char) (s : String) : List String :=
  (splitCh sep s.toList).map String.mk

/-- Decides whether the first character list is a prefix of the second. -/
def chPre : List Char → List Char → Bool
  | [], _ => true
  | _ :: _, [] => false
  | a :: as, b :: bs => a = b && chPre as bs

/-- Decides whether the first character list occurs contiguously inside the
second. -/
def chSub (needle : List Char) : List Char → Bool
  | [] => chPre needle []
  | b :: bs => chPre needle (b :: bs) || chSub needle bs

/-- ASCII lower-casing of a character (the range the JS regex `i` flag and
the claims exercise). -/
def lowCh (c : Char) : Char :=
  if 65 ≤ c.toNat && c.toNat ≤ 90 then Char.ofNat (c.toNat + 32) else c

/-- ASCII lower-casing of a string. -/
def lowerStr (s : String) : String :=
  String.mk (s.toList.map lowCh)

/-- Case-insensitive substring test: the behaviour of the Mongo
`$regex: pattern, $options: i` match restricted to a metacharacter-free
pattern. This is the regime of every concrete search the confirmed claims
evaluate; the general `$regex` behaviour is embedded separately as
`searchRegexOr` on the dot-and-literal fragment, and
`searchRegexOr_literal` proves the two agree whenever the pattern is
metacharacter-free. -/
def iContains (hay needle : String) : Bool :=
  chSub (lowerStr needle).toList (lowerStr hay).toList

/-- Models the Express extended parser for a single raw query parameter:
a key of the form `field[sub]` parses to a one-level object under `field`,
any other key stays flat. -/
def qsParseKV (kv : String × String) : String × QVal :=
  match splitCh '[' kv.1.toList with
  | [f, sub] =>
    match sub.reverse with
    | ']' :: subRev => (String.mk f, QVal.obj [(String.mk subRev.reverse, kv.2)])
    | _ => (kv.1, QVal.str kv.2)
  | _ => (kv.1, QVal.str kv.2)

/-- Models the Express extended parser over a whole raw parameter list. -/
def qsParse (raw : List (String × String)) : List (String × QVal) :=
  raw.map qsParseKV

/-- The array `removeFields` of the controller: the reserved keys deleted from the
copied query object before it is turned into a filter. -/
def removeFields : List String := ["select", "sort", "page", "limit", "search"]

/-- The copied query object after `removeFields.forEach(param => delete
reqQuery[param])`: only top-level reserved keys are removed. -/
def reqQueryFiltered (q : List (String × QVal)) : List (String × QVal) :=
  q.filter fun kv => !(removeFields.contains kv.1)

/-- The operator tokens of the controller regex
`\b(gt|gte|lt|lte|in)\b`. -/
def mongoOps : List String := ["gt", "gte", "lt", "lte", "in"]

/-- A word character in the sense of the JS regex `\b` boundary:
ASCII alphanumeric or underscore. -/
def isWordChar (c : Char) : Bool :=
  c.isAlphanum || c = '_'

/-- Emits an accumulated maximal word: operator tokens get the `$` prefix the
regex replacement inserts, other words pass through. -/
def flushWord (w : List Char) : List Char :=
  if mongoOps.contains (String.mk w) then '$' :: w else w

/-- One left-to-right pass collecting maximal word-character runs and
rewriting the runs that equal an operator token. -/
def dollarizeGo (acc cur : List Char) : List Char → List Char
  | [] => acc ++ flushWord cur
  | c :: cs =>
    if isWordChar c then dollarizeGo acc (cur ++ [c]) cs
    else dollarizeGo (acc ++ flushWord cur ++ [c]) [] cs

/-- The effect of `queryStr.replace(/\b(gt|gte|lt|lte|in)\b/g, m => ...)` on
a single string: every maximal word-character run equal to one of the five
operator tokens is prefixed with `$`. Because `\b` only holds at word/non-word
transitions and the JSON punctuation around keys and values is non-word, the
global replacement over the serialized object acts exactly string by string,
so the stringify/replace/parse round trip is embedded as this per-string
rewrite. -/
def dollarize (s : String) : String :=
  String.mk (dollarizeGo [] [] s.toList)

/-- The rewrite applied to a parsed query value: the serialized form of an
object value exposes both its subkeys and its string values to the regex. -/
def dollarizeVal : QVal → QVal
  | .str s => .str (dollarize s)
  | .obj kvs => .obj (kvs.map fun kv => (dollarize kv.1, dollarize kv.2))

/-- The rewrite applied to a whole parameter list (keys and values). -/
def dollarizeEntries (entries : List (String × QVal)) : List (String × QVal) :=
  entries.map fun kv => (dollarize kv.1, dollarizeVal kv.2)

/-- The filter document the controller hands to `Movie.find` and
`Movie.countDocuments`: reserved keys removed, then the serialized
parameters rewritten by the operator regex and parsed back. -/
def mongoQuery (q : List (String × QVal)) : List (String × QVal) :=
  dollarizeEntries (reqQueryFiltered q)

/-- Numeric value of a list of decimal digit characters. -/
def digitsVal (ds : List Char) : Nat :=
  ds.foldl (fun a c => a * 10 + (c.toNat - 48)) 0

/-- JS `parseInt(s, 10)`: skip leading whitespace, take an optional sign and
then the maximal run of decimal digits; `none` stands for `NaN` when no digit
is found. -/
def parseIntJS (s : String) : Option Int :=
  let cs := s.toList.dropWhile fun c => c = ' ' || c = '\t' || c = '\n' || c = '\r'
  let neg := cs.head? = some '-'
  let cs1 := if cs.head? = some '-' || cs.head? = some '+' then cs.tail else cs
  let ds := cs1.takeWhile Char.isDigit
  if ds.isEmpty then none
  else some (if neg then -(digitsVal ds : Int) else (digitsVal ds : Int))

/-- First string value bound to a top-level key of the parsed query; object
values (which `parseInt` would turn into `NaN` and the truthiness tests treat
as objects) yield `none` here. -/
def QVal.strVal? : QVal → Option String
  | .str s => some s
  | .obj _ => none

/-- Lookup of a reserved top-level parameter as a string. -/
def lookupStr (q : List (String × QVal)) (k : String) : Option String :=
  (q.lookup k).bind QVal.strVal?

/-- The `parseInt(req.query.k, 10) || dflt` idiom: a missing or non-numeric
value is `NaN` (falsy) and the literal `0` is falsy too, so both fall back to
the default; any other parsed integer -- negative ones included -- is kept. -/
def intParam (q : List (String × QVal)) (k : String) (dflt : Int) : Int :=
  match lookupStr q k with
  | none => dflt
  | some s =>
    match parseIntJS s with
    | none => dflt
    | some n => if n = 0 then dflt else n

/-- The parsed `page` of the controller (default 1). -/
def pageOf (q : List (String × QVal)) : Int :=
  intParam q "page" 1

/-- The parsed `limit` of the controller (default 10). -/
def limitOf (q : List (String × QVal)) : Int :=
  intParam q "limit" 10

/-- The value `startIndex = (page - 1) * limit` of the controller, the number of records
the query skips. -/
def startIndexOf (q : List (String × QVal)) : Int :=
  (pageOf q - 1) * limitOf q

/-- The value `endIndex = page * limit` of the controller. -/
def endIndexOf (q : List (String × QVal)) : Int :=
  pageOf q * limitOf q

/-- A scalar BSON value of the movie schema: a string or a number. -/
inductive BVal where
  | str : String → BVal
  | num : Int → BVal
  deriving DecidableEq, Repr

/-- The string-typed schema paths among the modelled fields. -/
def isStrField (f : String) : Bool :=
  f = "title" || f = "description" || f = "director"

/-- The number-typed schema paths among the modelled fields. -/
def isNumField (f : String) : Bool :=
  f = "rating" || f = "duration" || f = "createdAt"

/-- The value a movie document holds at a field path; `none` for a path the
document does not carry. -/
def fieldVal? (m : Movie) (f : String) : Option BVal :=
  if f = "title" then some (.str m.title)
  else if f = "description" then some (.str m.description)
  else if f = "director" then some (.str m.director)
  else if f = "rating" then some (.num m.rating)
  else if f = "duration" then some (.num m.duration)
  else if f = "createdAt" then some (.num m.createdAt)
  else none

/-- The Mongoose cast of a query-string value to a schema Number: the integer
subset of the JS `Number` conversion, which is all the listing claims
exercise; `none` is a `CastError`, which aborts the whole store query
(for example the value `1,2` that an unsplit `in` list produces). -/
def castNum? (s : String) : Option Int :=
  let cs := s.toList
  let neg := cs.head? = some '-'
  let cs1 := if cs.head? = some '-' || cs.head? = some '+' then cs.tail else cs
  if !cs1.isEmpty && cs1.all Char.isDigit then
    some (if neg then -(digitsVal cs1 : Int) else (digitsVal cs1 : Int))
  else none

/-- Casts a query value for a field: number paths go through the Mongoose
number cast, string paths and unknown paths keep the raw string. -/
def castForField (f s : String) : Option BVal :=
  if isNumField f then (castNum? s).map BVal.num else some (BVal.str s)

/-- The comparison operators MongoDB accepts with a scalar casted value in
this model (`$in` is absent: it requires an array argument, and the
controller only ever produces scalar strings for it). -/
def compOps : List String := ["$gt", "$gte", "$lt", "$lte"]

/-- Integer comparison as a three-way ordering. -/
def cmpInt (i j : Int) : Ordering :=
  if i < j then .lt else if j < i then .gt else .eq

/-- Lexicographic character-list comparison (byte order on the ASCII data the
claims use). -/
def cmpChars : List Char → List Char → Ordering
  | [], [] => .eq
  | [], _ :: _ => .lt
  | _ :: _, [] => .gt
  | a :: as, b :: bs =>
    if a < b then .lt else if b < a then .gt else cmpChars as bs

/-- BSON scalar comparison: numbers order before strings, same-type values
compare naturally. -/
def cmpBVal : BVal → BVal → Ordering
  | .num i, .num j => cmpInt i j
  | .num _, .str _ => .lt
  | .str _, .num _ => .gt
  | .str a, .str b => cmpChars a.toList b.toList

/-- BSON comparison lifted to possibly missing field values: a missing value
orders before every present one. -/
def cmpFieldVal : Option BVal → Option BVal → Ordering
  | none, none => .eq
  | none, some _ => .lt
  | some _, none => .gt
  | some a, some b => cmpBVal a b

/-- Evaluation of one comparison operator against an ordering outcome. -/
def evalComp (o : Ordering) (op : String) : Bool :=
  if op = "$gt" then o = .gt
  else if op = "$gte" then o = .gt || o = .eq
  else if op = "$lt" then o = .lt
  else if op = "$lte" then o = .lt || o = .eq
  else false

/-- Validation of one filter-document entry by the store model: a top-level
`$` key is an unsupported operator; an equality value on a number path must
cast; an all-`$` object must hold supported comparison operators with
castable values; a non-operator object on a schema path is a Mongoose
`CastError`, while on an unknown path it passes through as an
embedded-document equality. -/
def entryValid (f : String) (v : QVal) : Bool :=
  if chPre ['$'] f.toList then false
  else
    match v with
    | .str s => if isNumField f then (castNum? s).isSome else true
    | .obj kvs =>
      if kvs.all fun kv => chPre ['$'] kv.1.toList then
        kvs.all fun kv =>
          compOps.contains kv.1 &&
            (if isNumField f then (castNum? kv.2).isSome else true)
      else !(isNumField f || isStrField f)

/-- Whether the whole filter document executes without a store error. -/
def docValid (doc : List (String × QVal)) : Bool :=
  doc.all fun kv => entryValid kv.1 kv.2

/-- Evaluation of one filter-document entry against a movie document (the
meaning of the document when `docValid` holds): a string value is an
equality after casting, an object value is the conjunction of its operator
conditions; conditions on a missing or uncastable value do not match. -/
def evalEntry (m : Movie) (f : String) (v : QVal) : Bool :=
  match v with
  | .str s =>
    match fieldVal? m f, castForField f s with
    | some fv, some qv => cmpBVal fv qv = .eq
    | _, _ => false
  | .obj kvs =>
    kvs.all fun kv =>
      match fieldVal? m f, castForField f kv.2 with
      | some fv, some qv => evalComp (cmpBVal fv qv) kv.1
      | _, _ => false

/-- Whether a movie matches a filter document (implicit conjunction over the
entries, as in MongoDB). -/
def evalFilterB (doc : List (String × QVal)) (m : Movie) : Bool :=
  doc.all fun kv => evalEntry m kv.1 kv.2

/-- The `search` value the truthiness test `if (req.query.search)` accepts:
present and a non-empty string (the empty string is falsy in JS). -/
def searchVal (q : List (String × QVal)) : Option String :=
  match lookupStr q "search" with
  | some s => if s = "" then none else some s
  | none => none

/-- The `$or` predicate the controller builds from `req.query.search`, in
the metacharacter-free regime where the regex match is a case-insensitive
substring match on any of `title`, `description`, `director` (see
`searchRegexOr` for the faithful regex condition and
`searchRegexOr_literal` for the agreement on that regime). -/
def searchOr (s : String) (m : Movie) : Bool :=
  iContains m.title s || iContains m.description s || iContains m.director s

/-- A token of the modelled fragment of the regular-expression language the
search string is interpreted in: a literal character or the dot
metacharacter. -/
inductive RTok where
  | lit : Char → RTok
  | dot : RTok
  deriving DecidableEq, Repr

/-- The regex metacharacters outside the modelled dot-and-literal fragment
(the two brace characters are written by code point). -/
def regexMeta : List Char :=
  ['\\', '^', '$', '*', '+', '?', '(', ')', '[', ']', '|',
    Char.ofNat 123, Char.ofNat 125]

/-- Parses one pattern character: a dot is the any-character metacharacter,
the other metacharacters are outside the modelled fragment, and every
remaining character is a literal, lowered for the `i` option. -/
def parseRTok (c : Char) : Option RTok :=
  if c = '.' then some RTok.dot
  else if regexMeta.contains c then none
  else some (RTok.lit (lowCh c))

/-- Parses a whole search string as a pattern of the dot-and-literal
fragment; `none` when it uses regex syntax beyond that fragment. -/
def parsePattern : List Char → Option (List RTok)
  | [] => some []
  | c :: cs =>
    match parseRTok c, parsePattern cs with
    | some t, some ts => some (t :: ts)
    | _, _ => none

/-- One token against one lowered subject character; the PCRE dot of the
store matches every character except the newline. -/
def rtokMatch (t : RTok) (c : Char) : Bool :=
  match t with
  | .lit a => a = c
  | .dot => !(c = '\n')

/-- Anchored match of a token list at the head of the subject. -/
def rtoksHere : List RTok → List Char → Bool
  | [], _ => true
  | _ :: _, [] => false
  | t :: ts, c :: cs => rtokMatch t c && rtoksHere ts cs

/-- Unanchored search of a token list anywhere in the subject, which is how
an unanchored `$regex` condition matches. -/
def rtoksFind (ts : List RTok) : List Char → Bool
  | [] => rtoksHere ts []
  | c :: cs => rtoksHere ts (c :: cs) || rtoksFind ts cs

/-- Whether a pattern character is a plain literal (neither the dot nor any
other metacharacter). -/
def isLitChar (c : Char) : Bool :=
  match parseRTok c with
  | some (RTok.lit _) => true
  | _ => false

/-- Whether the whole search string is free of regex metacharacters: the
regime in which a regex match is a literal substring match. -/
def literalPattern (s : String) : Bool :=
  s.toList.all isLitChar

/-- The faithful embedding of the search condition the controller sends to
the store: the raw search string is used as a regular expression with the
`i` option -- not as a literal -- in a `$or` over exactly `title`,
`description` and `director`; `none` when the pattern falls outside the
modelled dot-and-literal fragment. -/
def searchRegexOr (s : String) (m : Movie) : Option Bool :=
  (parsePattern s.toList).map fun ts =>
    rtoksFind ts (m.title.toList.map lowCh) ||
    rtoksFind ts (m.description.toList.map lowCh) ||
    rtoksFind ts (m.director.toList.map lowCh)

/-- The search side of the listing query: always true when no search value is
active. -/
def searchHit (q : List (String × QVal)) (m : Movie) : Bool :=
  match searchVal q with
  | some s => searchOr s m
  | none => true

/-- The record predicate of the executed listing query: Mongoose merges the
two consecutive `find` condition sets, so the filter document and the search
`$or` combine conjunctively. -/
def matchesListing (q : List (String × QVal)) (m : Movie) : Bool :=
  evalFilterB (mongoQuery q) m && searchHit q m

/-- Parses one Mongoose sort token: a `-` prefix means descending. -/
def parseSortToken (t : String) : String × Bool :=
  match t.toList with
  | '-' :: rest => (String.mk rest, true)
  | _ => (t, false)

/-- The controller turns `req.query.sort` into a space-separated Mongoose
sort string by `split(',').join(' ')`; Mongoose then splits on spaces and
ignores empty tokens, so the token list is the comma-and-space split of the
original value. -/
def sortTokens (s : String) : List String :=
  (((splitStr ',' s).map (splitStr ' ')).flatten).filter fun t => t ≠ ""

/-- The ordered sort specification of the listing query: the parsed tokens
of a truthy `sort` parameter, or the controller default `-createdAt`. -/
def sortSpec (q : List (String × QVal)) : List (String × Bool) :=
  match lookupStr q "sort" with
  | some s =>
    if s = "" then [("createdAt", true)]
    else (sortTokens s).map parseSortToken
  | none => [("createdAt", true)]

/-- Single-field comparison of two movies under a sort direction. -/
def cmpField (a b : Movie) (f : String) (desc : Bool) : Ordering :=
  let o := cmpFieldVal (fieldVal? a f) (fieldVal? b f)
  if desc then o.swap else o

/-- Lexicographic comparison under an ordered sort specification: the first
token is the primary key, later tokens break ties. -/
def cmpBySpec (spec : List (String × Bool)) (a b : Movie) : Ordering :=
  match spec with
  | [] => .eq
  | (f, d) :: rest =>
    match cmpField a b f d with
    | .eq => cmpBySpec rest a b
    | o => o

/-- Insertion of a movie into a list sorted by a specification. -/
def insertBy (spec : List (String × Bool)) (x : Movie) :
    List Movie → List Movie
  | [] => [x]
  | y :: ys =>
    if cmpBySpec spec x y ≠ .gt then x :: y :: ys else y :: insertBy spec x ys

/-- Sorting of the matched records by the sort specification (the store
applies the sort before skip and limit). -/
def sortByCmp (spec : List (String × Bool)) : List Movie → List Movie
  | [] => []
  | x :: xs => insertBy spec x (sortByCmp spec xs)

/-- A page reference inside the pagination descriptor of the response. -/
structure PageRef where
  page : Int
  limit : Int
  deriving DecidableEq, Repr

/-- The listing response envelope: `count` of returned rows, the `total` of
the count query, the optional `next`/`prev` page references and the data
page itself. -/
structure Envelope where
  count : Nat
  total : Nat
  next : Option PageRef
  prev : Option PageRef
  data : List Movie
  deriving DecidableEq, Repr

/-- The listing endpoint over a record store: builds the filter document,
runs the count query on the filter document alone
(`Movie.countDocuments(JSON.parse(queryStr))`), executes the filtered,
searched, sorted and paginated find, and assembles the envelope. `none` is
the `catch` path: the store rejected the translated plan. Field selection
only projects returned columns and is not modelled. -/
def getMoviesM (store : List Movie) (q : List (String × QVal)) :
    Option Envelope :=
  let doc := mongoQuery q
  if docValid doc then
    let total := (store.filter fun m => evalFilterB doc m).length
    let matched := store.filter fun m => matchesListing q m
    let sorted := sortByCmp (sortSpec q) matched
    let dataOut := (sorted.drop (startIndexOf q).toNat).take (limitOf q).toNat
    some
      { count := dataOut.length
        total := total
        next :=
          if endIndexOf q < (total : Int) then
            some ⟨pageOf q + 1, limitOf q⟩
          else none
        prev :=
          if 0 < startIndexOf q then
            some ⟨pageOf q - 1, limitOf q⟩
          else none
        data := dataOut }
  else none

/-- Count of the records matching the filter document alone, stated
independently of the pipeline. -/
def filterOnlyCount (store : List Movie) (q : List (String × QVal)) : Nat :=
  (store.filter fun m => evalFilterB (mongoQuery q) m).length

/-- Count of the records matching the combined predicate of translation
steps 1-3 -- the conjunctive filters AND the search predicate -- which is
the total the specification claims the endpoint reports. -/
def filterAndSearchCount (store : List Movie) (q : List (String × QVal)) :
    Nat :=
  (store.filter fun m => evalFilterB (mongoQuery q) m && searchHit q m).length

/-! Concrete fixtures used by witnesses and counterexamples. -/

/-- A record whose title carries the word Batman in mixed case. -/
def exBatman : Movie :=
  { title := "Batman Begins", description := "origin story", director := "Nolan"
    rating := 9, duration := 140, createdAt := 2 }

/-- A record that carries the word batman nowhere. -/
def exAlien : Movie :=
  { title := "Alien", description := "space horror", director := "Scott"
    rating := 8, duration := 117, createdAt := 1 }

/-- The two-record store of the counterexamples. -/
def exStore : List Movie := [exBatman, exAlien]

/-- The parameter set of a bare search request. -/
def exSearchQ : List (String × QVal) := [("search", QVal.str "batman")]

/-- The parsed parameters of the request `?sort=-rating&rating[gte]=8`. -/
def exC4 : List (String × QVal) :=
  qsParse [("sort", "-rating"), ("rating[gte]", "8")]

/-- Translation of a single non-reserved parameter: the rewrite acts on the
key and the value. -/
theorem mongoQuery_single (f : String) (x : QVal)
    (hres : removeFields.contains f = false) :
    mongoQuery [(f, x)] = [(dollarize f, dollarizeVal x)] := by
  have h' : f ∉ removeFields := by simpa using hres
  simp [mongoQuery, reqQueryFiltered, h', dollarizeEntries]

/-- A literal pattern character parses to its lowered literal token. -/
theorem parseRTok_lit (c : Char) (h : isLitChar c = true) :
    parseRTok c = some (RTok.lit (lowCh c)) := by
  unfold isLitChar at h
  unfold parseRTok at h ⊢
  by_cases h1 : c = '.'
  · simp [h1] at h
  · by_cases h2 : c ∈ regexMeta
    · simp [h1, h2] at h
    · simp [h1, h2]

/-- An all-literal pattern parses to its lowered literal tokens. -/
theorem parsePattern_lit (cs : List Char) (h : cs.all isLitChar = true) :
    parsePattern cs = some (cs.map fun c => RTok.lit (lowCh c)) := by
  induction cs with
  | nil => rfl
  | cons c cs ih =>
    simp only [List.all_cons, Bool.and_eq_true] at h
    simp only [parsePattern, parseRTok_lit c h.1, ih h.2, List.map]

/-- Anchored matching of literal tokens is prefix matching. -/
theorem rtoksHere_lit (ls : List Char) (cs : List Char) :
    rtoksHere (ls.map RTok.lit) cs = chPre ls cs := by
  induction ls generalizing cs with
  | nil => cases cs <;> rfl
  | cons a as ih =>
    cases cs with
    | nil => rfl
    | cons b bs => simp [rtoksHere, chPre, rtokMatch, ih]

/-- Unanchored search for literal tokens is substring matching. -/
theorem rtoksFind_lit (ls : List Char) (cs : List Char) :
    rtoksFind (ls.map RTok.lit) cs = chSub ls cs := by
  induction cs with
  | nil => simp [rtoksFind, chSub, rtoksHere_lit]
  | cons b bs ih => simp [rtoksFind, chSub, rtoksHere_lit, ih]

/-- For a metacharacter-free search string the faithful regex condition of
the store coincides with the case-insensitive substring disjunction of the
pipeline model. -/
theorem searchRegexOr_literal (s : String) (m : Movie)
    (h : literalPattern s = true) :
    searchRegexOr s m = some (searchOr s m) := by
  unfold literalPattern at h
  unfold searchRegexOr
  rw [parsePattern_lit s.toList h]
  have hmap : (s.toList.map fun c => RTok.lit (lowCh c))
      = (s.toList.map lowCh).map RTok.lit := by
    simp [List.map_map]
  simp only [Option.map_some', hmap, rtoksFind_lit]
  rfl

/-- Claim C1, counterexample: on a two-record store with no filters and
`search=batman`, only one record matches the combined filter-and-search
predicate of steps 1-3, yet the endpoint reports `total = 2`, because the
count query runs on the filter document alone. -/
theorem c1_counterexample :
    (getMoviesM exStore exSearchQ).map Envelope.total = some 2 ∧
    filterAndSearchCount exStore exSearchQ = 1 ∧
    (getMoviesM exStore exSearchQ).map Envelope.total ≠
      some (filterAndSearchCount exStore exSearchQ) := by
  decide

/-- Claim C1, amended: for every incoming parameter set on which the store
accepts the plan, the reported `total` equals the number of records matching
the conjunctive bracket/equality filters alone; the search predicate is
excluded from the count, and the count request uses no skip, limit, sort or
select. -/
theorem c1_total_filter_only (store : List Movie) (q : List (String × QVal))
    (env : Envelope) (henv : getMoviesM store q = some env) :
    env.total = filterOnlyCount store q := by
  by_cases hv : docValid (mongoQuery q) = true
  · simp [getMoviesM, hv] at henv
    simp [← henv, filterOnlyCount]
  · simp [getMoviesM, hv] at henv

/-- Claim C1, witness for the amended theorem at the search request of the
counterexample. -/
theorem c1_total_filter_only_witness :
    (⟨1, 2, none, none, [exBatman]⟩ : Envelope).total =
      filterOnlyCount exStore exSearchQ :=
  c1_total_filter_only exStore exSearchQ ⟨1, 2, none, none, [exBatman]⟩
    (by decide)

/-- Claim C7, counterexample: the parameter `page=-2` parses to the negative
page number -2, so the pagination window of the constructed plan violates
the claimed invariant page number at least 1. -/
theorem c7_counterexample :
    pageOf [("page", QVal.str "-2")] = -2 ∧
    ¬ (1 ≤ pageOf [("page", QVal.str "-2")]) := by
  decide

/-- Claim C7, amended: the pagination window satisfies page number at least 1
and page size at least 1 for every parameter set whose `page` and `limit`
values do not parse to a negative integer (a missing, non-numeric or zero
value falls back to the positive default; only an explicitly negative
numeric input escapes the invariant). -/
theorem c7_window_nonnegative_inputs (q : List (String × QVal))
    (hp : ∀ s n, lookupStr q "page" = some s → parseIntJS s = some n → 0 ≤ n)
    (hl : ∀ s n, lookupStr q "limit" = some s → parseIntJS s = some n → 0 ≤ n) :
    1 ≤ pageOf q ∧ 1 ≤ limitOf q := by
  constructor
  · unfold pageOf intParam
    cases hcase : lookupStr q "page" with
    | none => simp
    | some s =>
      dsimp only
      cases hpi : parseIntJS s with
      | none => dsimp only; omega
      | some n =>
        have hn := hp s n hcase hpi
        dsimp only
        by_cases h0 : n = 0
        · simp [h0]
        · simp only [h0, if_false]
          omega
  · unfold limitOf intParam
    cases hcase : lookupStr q "limit" with
    | none => simp
    | some s =>
      dsimp only
      cases hpi : parseIntJS s with
      | none => dsimp only; omega
      | some n =>
        have hn := hl s n hcase hpi
        dsimp only
        by_cases h0 : n = 0
        · simp [h0]
        · simp only [h0, if_false]
          omega

/-- Claim C7, witness for the amended theorem at `page=3&limit=5`. -/
theorem c7_window_nonnegative_inputs_witness :
    1 ≤ pageOf [("page", QVal.str "3"), ("limit", QVal.str "5")] ∧
    1 ≤ limitOf [("page", QVal.str "3"), ("limit", QVal.str "5")] :=
  c7_window_nonnegative_inputs _
    (by
      intro s n h1 h2
      have h3 : lookupStr [("page", QVal.str "3"), ("limit", QVal.str "5")]
          "page" = some "3" := by decide
      rw [h3] at h1
      injection h1 with h1'
      subst h1'
      have h4 : parseIntJS "3" = some 3 := by decide
      rw [h4] at h2
      injection h2 with h2'
      omega)
    (by
      intro s n h1 h2
      have h3 : lookupStr [("page", QVal.str "3"), ("limit", QVal.str "5")]
          "limit" = some "5" := by decide
      rw [h3] at h1
      injection h1 with h1'
      subst h1'
      have h4 : parseIntJS "5" = some 5 := by decide
      rw [h4] at h2
      injection h2 with h2'
      omega)

/-- Claim C9: the operator rewrite acts on the whole serialized parameter
set, not only on bracket positions: a bare value `gt`, a plain field
literally named `in`, and a standalone word `in` inside a longer value all
get the dollar prefix. -/
theorem c9_rewrite_everywhere :
    mongoQuery [("title", QVal.str "gt")] = [("title", QVal.str "$gt")] ∧
    mongoQuery [("in", QVal.str "x")] = [("$in", QVal.str "x")] ∧
    mongoQuery [("note", QVal.str "new in town")]
      = [("note", QVal.str "new $in town")] := by
  decide

/-- Claim C10: the literal 0 is falsy at the pagination fallback, so `page=0`
yields the default page 1 and `limit=0` the default limit 10, while negative
integers pass through unchanged. -/
theorem c10_zero_falls_back :
    pageOf [("page", QVal.str "0")] = 1 ∧
    limitOf [("limit", QVal.str "0")] = 10 ∧
    pageOf [("page", QVal.str "-2")] = -2 ∧
    limitOf [("limit", QVal.str "-5")] = -5 := by
  decide

/-- Claim C2, counterexample: the operator rewrite is not confined to
bracket positions, so the bare parameter `title=gt` does not translate to
the claimed equality predicate on the value `gt`; its value is rewritten to
`$gt`. -/
theorem c2_counterexample :
    mongoQuery [("title", QVal.str "gt")] = [("title", QVal.str "$gt")] ∧
    mongoQuery [("title", QVal.str "gt")] ≠ [("title", QVal.str "gt")] := by
  decide

/-- Claim C2, amended: for a non-reserved field whose name and value carry no
standalone operator word, a bracket key with op in gt, gte, lt, lte, in maps
to the corresponding dollar-operator predicate on the field, a bare key maps
to an equality predicate, and any other bracket content passes through
untouched as a nested subkey with no error from the translator (case
matters: an unmatched token such as GT is left alone). The value of an `in`
operator is not split on commas: it reaches the store as one scalar string,
which the store model rejects for `$in`. The rewrite itself applies to every
standalone operator word anywhere in the serialized parameters, not only in
bracket position. -/
theorem c2_amended (f v op sub : String)
    (hres : removeFields.contains f = false)
    (hf : dollarize f = f) (hv : dollarize v = v)
    (hop : op ∈ mongoOps) (hs : dollarize sub = sub) :
    mongoQuery [(f, QVal.obj [(op, v)])] = [(f, QVal.obj [("$" ++ op, v)])] ∧
    mongoQuery [(f, QVal.str v)] = [(f, QVal.str v)] ∧
    mongoQuery [(f, QVal.obj [(sub, v)])] = [(f, QVal.obj [(sub, v)])] ∧
    docValid [(f, QVal.obj [("$in", v)])] = false := by
  have hop' : dollarize op = "$" ++ op := by
    have h5 : op = "gt" ∨ op = "gte" ∨ op = "lt" ∨ op = "lte" ∨ op = "in" := by
      simpa [mongoOps] using hop
    rcases h5 with rfl | rfl | rfl | rfl | rfl <;> decide
  refine ⟨?_, ?_, ?_, ?_⟩
  · rw [mongoQuery_single f _ hres]
    simp [dollarizeVal, hf, hv, hop']
  · rw [mongoQuery_single f _ hres]
    simp [dollarizeVal, hf, hv]
  · rw [mongoQuery_single f _ hres]
    simp [dollarizeVal, hf, hv, hs]
  · have hin2 : chPre ['$'] ['$', 'i', 'n'] = true := by decide
    have hmemIn : "$in" ∉ compOps := by decide
    by_cases hd : chPre ['$'] f.data = true
    · simp [docValid, entryValid, String.toList, hd]
    · simp [docValid, entryValid, String.toList, hd, hin2, hmemIn]

/-- Claim C2, witness for the amended theorem at field `rating`, value `8`,
operator `gte` and unrecognized bracket content `foo`. -/
theorem c2_amended_witness :
    mongoQuery [("rating", QVal.obj [("gte", "8")])]
      = [("rating", QVal.obj [("$" ++ "gte", "8")])] ∧
    mongoQuery [("rating", QVal.str "8")] = [("rating", QVal.str "8")] ∧
    mongoQuery [("rating", QVal.obj [("foo", "8")])]
      = [("rating", QVal.obj [("foo", "8")])] ∧
    docValid [("rating", QVal.obj [("$in", "8")])] = false :=
  c2_amended "rating" "8" "gte" "foo" (by decide) (by decide) (by decide)
    (by decide) (by decide)

/-- Claim C3: when the parsed page and limit are at least 1 and the store
accepts the plan, the envelope carries `next` with value (page+1, limit)
exactly when page * limit is below the reported total, and carries `prev`
with value (page-1, limit) exactly when the page is above 1. -/
theorem c3_pagination_links (store : List Movie) (q : List (String × QVal))
    (env : Envelope) (hp : 1 ≤ pageOf q) (hl : 1 ≤ limitOf q)
    (henv : getMoviesM store q = some env) :
    (env.next = some ⟨pageOf q + 1, limitOf q⟩ ↔
      pageOf q * limitOf q < (env.total : Int)) ∧
    (env.prev = some ⟨pageOf q - 1, limitOf q⟩ ↔ 1 < pageOf q) := by
  by_cases hv : docValid (mongoQuery q) = true
  · simp only [getMoviesM, hv, if_true] at henv
    injection henv with henv
    subst henv
    have harith : 0 < startIndexOf q ↔ 1 < pageOf q := by
      unfold startIndexOf
      constructor
      · intro h
        rcases lt_or_eq_of_le hp with h1 | h1
        · exact h1
        · rw [← h1] at h
          simp at h
      · intro h
        have h1 : 0 < pageOf q - 1 := by omega
        have h2 : 0 < limitOf q := by omega
        exact mul_pos h1 h2
    constructor
    · dsimp only
      simp only [endIndexOf]
      split_ifs with hc <;> simp [hc]
    · dsimp only
      by_cases hc : 0 < startIndexOf q
      · simp [hc, harith.mp hc]
      · simp only [hc, if_false]
        constructor
        · intro h
          exact absurd h (by simp)
        · intro h
          exact absurd (harith.mpr h) hc
  · simp [getMoviesM, hv] at henv

/-- Claim C3, witness at a two-record store with `limit=1` on page 1: `next`
is present as page 2 with limit 1, `prev` is absent. -/
theorem c3_pagination_links_witness :
    ((⟨1, 2, some ⟨2, 1⟩, none, [exBatman]⟩ : Envelope).next =
        some ⟨pageOf [("limit", QVal.str "1")] + 1,
              limitOf [("limit", QVal.str "1")]⟩ ↔
      pageOf [("limit", QVal.str "1")] * limitOf [("limit", QVal.str "1")] <
        ((⟨1, 2, some ⟨2, 1⟩, none, [exBatman]⟩ : Envelope).total : Int)) ∧
    ((⟨1, 2, some ⟨2, 1⟩, none, [exBatman]⟩ : Envelope).prev =
        some ⟨pageOf [("limit", QVal.str "1")] - 1,
              limitOf [("limit", QVal.str "1")]⟩ ↔
      1 < pageOf [("limit", QVal.str "1")]) :=
  c3_pagination_links exStore [("limit", QVal.str "1")]
    ⟨1, 2, some ⟨2, 1⟩, none, [exBatman]⟩ (by decide) (by decide) (by decide)

/-- Claim C4: a reserved key (`select`, `sort`, `page`, `limit`, `search`)
never contributes a filter predicate -- prepending one to any parameter set
leaves the filter document unchanged -- and in particular the request
`?sort=-rating&rating[gte]=8` filters every record by rating at least 8,
sorts descending by rating, and binds no filter to a field named `sort`. -/
theorem c4_reserved_keys (q : List (String × QVal)) (k : String) (v : QVal)
    (hk : removeFields.contains k = true) (m : Movie) :
    mongoQuery ((k, v) :: q) = mongoQuery q ∧
    evalFilterB (mongoQuery exC4) m = decide ((8 : Int) ≤ m.rating) ∧
    sortSpec exC4 = [("rating", true)] ∧
    (mongoQuery exC4).lookup "sort" = none := by
  refine ⟨?_, ?_, by decide, by decide⟩
  · have hk' : k ∈ removeFields := by simpa using hk
    simp [mongoQuery, reqQueryFiltered, hk']
  · have hq : mongoQuery exC4 = [("rating", QVal.obj [("$gte", "8")])] := by
      decide
    have hcast : castForField "rating" "8" = some (BVal.num 8) := by decide
    have hfv : fieldVal? m "rating" = some (BVal.num m.rating) := by
      simp [fieldVal?]
    rw [hq]
    simp only [evalFilterB, List.all_cons, List.all_nil, Bool.and_true,
      evalEntry, hfv, hcast]
    simp only [cmpBVal, evalComp, cmpInt]
    rcases lt_trichotomy m.rating 8 with h | h | h
    · have h1 : ¬ ((8 : Int) ≤ m.rating) := by omega
      simp [h, h1]
    · simp [h]
    · have h1 : ¬ (m.rating < 8) := by omega
      have h2 : (8 : Int) ≤ m.rating := by omega
      simp [h1, h, h2]

/-- Claim C4, witness: prepending the reserved `sort` parameter to a filter
parameter leaves the filter document unchanged, evaluated together with the
concrete example request. -/
theorem c4_reserved_keys_witness :
    mongoQuery (("sort", QVal.str "-rating") :: [("x", QVal.str "1")])
      = mongoQuery [("x", QVal.str "1")] ∧
    evalFilterB (mongoQuery exC4) exBatman
      = decide ((8 : Int) ≤ exBatman.rating) ∧
    sortSpec exC4 = [("rating", true)] ∧
    (mongoQuery exC4).lookup "sort" = none :=
  c4_reserved_keys [("x", QVal.str "1")] "sort" (QVal.str "-rating")
    (by decide) exBatman

/-- Claim C5, counterexample: the search string is handed to the store as a
regular expression, not as a literal: for `search=.` the condition built
from the three text fields matches a record none of whose fields contains a
dot character, so the built predicate is not a case-insensitive
substring-match predicate. -/
theorem c5_counterexample :
    searchRegexOr "." exAlien = some true ∧
    searchOr "." exAlien = false ∧
    searchRegexOr "." exAlien ≠ some (searchOr "." exAlien) := by
  decide

/-- Claim C5, amended: with a search parameter active the translator builds
a case-insensitive regex-match predicate -- the search string is used as a
regular expression -- over exactly the fields `title`, `description` and
`director` combined with logical OR, conjoined with the remaining filters
by logical AND; for a search string free of regex metacharacters this
predicate is exactly the case-insensitive substring disjunction, and the
record predicate of the listing query is then the conjunction of the
translated filter document with that substring disjunction. -/
theorem c5_amended (q : List (String × QVal)) (s : String) (m : Movie)
    (hs : searchVal q = some s) (hlit : literalPattern s = true) :
    searchRegexOr s m = some (searchOr s m) ∧
    matchesListing q m =
      (evalFilterB (mongoQuery q) m &&
        (iContains m.title s || iContains m.description s ||
          iContains m.director s)) := by
  refine ⟨searchRegexOr_literal s m hlit, ?_⟩
  simp [matchesListing, searchHit, hs, searchOr]

/-- Claim C5, witness for the amended theorem: `search=batman` against a
record whose title contains `Batman` in mixed case; the regex condition and
the substring disjunction coincide and the predicate matches, ignoring
case. -/
theorem c5_amended_witness :
    (searchRegexOr "batman" exBatman = some (searchOr "batman" exBatman) ∧
      matchesListing exSearchQ exBatman =
        (evalFilterB (mongoQuery exSearchQ) exBatman &&
          (iContains exBatman.title "batman" ||
            iContains exBatman.description "batman" ||
            iContains exBatman.director "batman"))) ∧
    matchesListing exSearchQ exBatman = true :=
  ⟨c5_amended exSearchQ "batman" exBatman (by decide) (by decide), by decide⟩

/-- Claim C6: `page` defaults to 1 and `limit` to 10, a missing or
non-numeric value falls back to the default, a malformed `page` never makes
the endpoint error, and the query skips (page-1) * limit records. -/
theorem c6_pagination_defaults (s : String) (hbad : parseIntJS s = none)
    (store : List Movie) :
    pageOf [("page", QVal.str s)] = 1 ∧
    limitOf [("limit", QVal.str s)] = 10 ∧
    pageOf [] = 1 ∧
    limitOf [] = 10 ∧
    (getMoviesM store [("page", QVal.str s)]).isSome = true ∧
    (∀ q, startIndexOf q = (pageOf q - 1) * limitOf q) := by
  have hpage : mongoQuery [("page", QVal.str s)] = [] := by
    simp [mongoQuery, reqQueryFiltered, removeFields, dollarizeEntries]
  refine ⟨?_, ?_, by decide, by decide, ?_, fun q => rfl⟩
  · simp [pageOf, intParam, lookupStr, QVal.strVal?, hbad, List.lookup]
  · simp [limitOf, intParam, lookupStr, QVal.strVal?, hbad, List.lookup]
  · simp [getMoviesM, hpage, docValid]

/-- Claim C6, witness at `page=abc` on the two-record store. -/
theorem c6_pagination_defaults_witness :
    pageOf [("page", QVal.str "abc")] = 1 ∧
    limitOf [("limit", QVal.str "abc")] = 10 ∧
    pageOf [] = 1 ∧
    limitOf [] = 10 ∧
    (getMoviesM exStore [("page", QVal.str "abc")]).isSome = true ∧
    (∀ q, startIndexOf q = (pageOf q - 1) * limitOf q) :=
  c6_pagination_defaults "abc" (by decide) exStore

/-- Claim C8: an absent `sort` yields the default descending sort on the
creation timestamp; a present `sort` is split on commas into tokens where a
leading `-` means descending; token order is tie-break precedence -- the
first token decides whenever it distinguishes the records and later tokens
apply only on ties -- and the descending direction is the exact reversal of
the ascending comparison. -/
theorem c8_sort_spec (q0 : List (String × QVal))
    (h0 : lookupStr q0 "sort" = none) (spec : List (String × Bool))
    (f : String) (d : Bool) (a b : Movie) :
    sortSpec q0 = [("createdAt", true)] ∧
    sortSpec [("sort", QVal.str "rating,-title")]
      = [("rating", false), ("title", true)] ∧
    (cmpField a b f d ≠ .eq →
      cmpBySpec ((f, d) :: spec) a b = cmpField a b f d) ∧
    (cmpField a b f d = .eq →
      cmpBySpec ((f, d) :: spec) a b = cmpBySpec spec a b) ∧
    cmpField a b f true = (cmpField a b f false).swap := by
  refine ⟨?_, by decide, ?_, ?_, ?_⟩
  · simp [sortSpec, h0]
  · intro h
    cases hc : cmpField a b f d with
    | eq => exact absurd hc h
    | lt => simp [cmpBySpec, hc]
    | gt => simp [cmpBySpec, hc]
  · intro h
    simp [cmpBySpec, h]
  · simp [cmpField, Ordering.swap]

/-- Claim C8, witness: default sort for a sortless parameter set, and the
primary-key dominance at two concrete records ordered by rating. -/
theorem c8_sort_spec_witness :
    sortSpec [("select", QVal.str "title")] = [("createdAt", true)] ∧
    sortSpec [("sort", QVal.str "rating,-title")]
      = [("rating", false), ("title", true)] ∧
    (cmpField exBatman exAlien "rating" true ≠ .eq →
      cmpBySpec (("rating", true) :: [("title", false)]) exBatman exAlien
        = cmpField exBatman exAlien "rating" true) ∧
    (cmpField exBatman exAlien "rating" true = .eq →
      cmpBySpec (("rating", true) :: [("title", false)]) exBatman exAlien
        = cmpBySpec [("title", false)] exBatman exAlien) ∧
    cmpField exBatman exAlien "rating" true
      = (cmpField exBatman exAlien "rating" false).swap :=
  c8_sort_spec [("select", QVal.str "title")] (by decide) [("title", false)]
    "rating" true exBatman exAlien

end MovieApi
